import Mathlib

/-!
Verification of the resilience core of the marcelofabianov/monorepo-go
repository: retry/backoff engine (`pkg/retry`), the circuit-breaker-gated
rate limiter and client-identity middleware (`pkg/web/middleware`).

Modelling conventions:
* Go `time.Duration` is an `int64` count of nanoseconds; it is embedded as
  `Int`, with two's-complement wraparound made explicit (`wrap64`) at the one
  place where 64-bit multiplication can overflow (`LinearBackoff.NextDelay`).
* Go `float64` arithmetic (exponential backoff, the breaker failure ratio) is
  idealised as exact arithmetic over `ℚ`; the final `time.Duration(delay)`
  truncation in Go is not modelled, the theorems speak about the computed
  delay value.
* `rand.Float64()` is made an explicit parameter (`jitterFactor` stands for
  `0.5 + rand.Float64()`, hence ranges over `[1/2, 3/2)`).
-/

set_option maxHeartbeats 1000000

namespace MonorepoGo

/-- `time.Second` in nanoseconds. Go `time.Duration` values (int64
nanosecond counts) are embedded as unbounded `Int` throughout. -/
def second : Int := 1000000000

/-- Two's-complement wraparound of signed 64-bit integer arithmetic. -/
def wrap64 (x : Int) : Int := (x + 2 ^ 63) % 2 ^ 64 - 2 ^ 63

/-! ### pkg/retry/config.go — backoff strategies -/

/-- `ExponentialBackoffConfig` from pkg/retry/config.go. -/
structure ExponentialBackoffConfig where
  Min : Int
  Max : Int
  Factor : ℚ
  Jitter : Bool

/-- `ExponentialBackoff` from pkg/retry/config.go (the mutex is irrelevant to
the sequential model). -/
structure ExponentialBackoff where
  min : Int
  max : Int
  factor : ℚ
  jitter : Bool

/-- `NewExponentialBackoff`: applies defaults for invalid inputs, in the
source's order (Min first, then Max against the corrected Min, then Factor). -/
def NewExponentialBackoff (config : ExponentialBackoffConfig) : ExponentialBackoff :=
  let m := if config.Min ≤ 0 then second else config.Min
  let M := if config.Max < m then m else config.Max
  let f := if config.Factor ≤ 1 then 2 else config.Factor
  { min := m, max := M, factor := f, jitter := config.Jitter }

/-- The pre-jitter part of `ExponentialBackoff.NextDelay`: clamp a negative
attempt to 0, compute `float64(e.min) * math.Pow(e.factor, attempt)`, cap at
`float64(e.max)`. -/
def ExponentialBackoff.nextDelayPre (e : ExponentialBackoff) (attempt : Int) : ℚ :=
  let a := if attempt < 0 then 0 else attempt
  let delay := (e.min : ℚ) * e.factor ^ a.toNat
  if (e.max : ℚ) < delay then (e.max : ℚ) else delay

/-- `ExponentialBackoff.NextDelay`; `jitterFactor` stands for the source's
`0.5 + rand.Float64()`, applied after the cap when jitter is enabled. -/
def ExponentialBackoff.NextDelay (e : ExponentialBackoff) (attempt : Int)
    (jitterFactor : ℚ) : ℚ :=
  let delay := e.nextDelayPre attempt
  if e.jitter then delay * jitterFactor else delay

/-- `LinearBackoff` from pkg/retry/config.go. -/
structure LinearBackoff where
  increment : Int
  max : Int

/-- `NewLinearBackoff`: applies defaults for invalid inputs. -/
def NewLinearBackoff (increment max : Int) : LinearBackoff :=
  let inc := if increment ≤ 0 then second else increment
  let M := if max < inc then inc else max
  { increment := inc, max := M }

/-- `LinearBackoff.NextDelay`: `delay := l.increment * time.Duration(attempt+1)`
capped at `l.max`. Both the `attempt+1` and the multiplication are 64-bit
operations, so the wraparound is explicit. -/
def LinearBackoff.NextDelay (l : LinearBackoff) (attempt : Int) : Int :=
  let a := if attempt < 0 then 0 else attempt
  let delay := wrap64 (l.increment * wrap64 (a + 1))
  if l.max < delay then l.max else delay

theorem wrap64_eq_self (x : Int) (h1 : -2 ^ 63 ≤ x) (h2 : x < 2 ^ 63) :
    wrap64 x = x := by
  have hmod : (x + 2 ^ 63) % 2 ^ 64 = x + 2 ^ 63 :=
    Int.emod_eq_of_lt (by omega) (by omega)
  unfold wrap64
  omega

theorem nextDelayPre_eq_min (e : ExponentialBackoff) (attempt : Int)
    (ha : 0 ≤ attempt) :
    e.nextDelayPre attempt =
      min ((e.min : ℚ) * e.factor ^ attempt.toNat) (e.max : ℚ) := by
  simp only [ExponentialBackoff.nextDelayPre]
  have hcl : (if attempt < 0 then 0 else attempt) = attempt := by omega
  rw [hcl]
  rcases le_or_lt ((e.min : ℚ) * e.factor ^ attempt.toNat) (e.max : ℚ) with h | h
  · rw [if_neg (not_lt.mpr h), min_eq_left h]
  · rw [if_pos h, min_eq_right h.le]

theorem nextDelayPre_le_max (e : ExponentialBackoff) (attempt : Int) :
    e.nextDelayPre attempt ≤ (e.max : ℚ) := by
  simp only [ExponentialBackoff.nextDelayPre]
  rcases lt_or_le (e.max : ℚ)
      ((e.min : ℚ) * e.factor ^ (if attempt < 0 then 0 else attempt).toNat) with h | h
  · rw [if_pos h]
  · rw [if_neg (not_lt.mpr h)]
    exact h

/-- Small rational facts used to discharge jitter-interval hypotheses at
concrete inputs. -/
theorem ratHalfLeOne : (1 : ℚ) / 2 ≤ 1 := by norm_num

theorem ratOneLtThreeHalves : (1 : ℚ) < 3 / 2 := by norm_num

/-- C7: for every attempt ≥ 0 the exponential pre-jitter delay equals
`min (minDelay * factor ^ attempt) maxDelay`, is monotone non-decreasing in
the attempt, and never exceeds `maxDelay`. -/
theorem exponential_pre_jitter_monotone_capped (e : ExponentialBackoff)
    (hmin : 0 ≤ e.min) (hfac : 1 ≤ e.factor) :
    (∀ attempt : Int, 0 ≤ attempt →
        e.nextDelayPre attempt =
          min ((e.min : ℚ) * e.factor ^ attempt.toNat) (e.max : ℚ)) ∧
    (∀ a b : Int, 0 ≤ a → a ≤ b → e.nextDelayPre a ≤ e.nextDelayPre b) ∧
    (∀ attempt : Int, e.nextDelayPre attempt ≤ (e.max : ℚ)) := by
  refine ⟨fun attempt ha => nextDelayPre_eq_min e attempt ha,
    fun a b ha hab => ?_, fun attempt => nextDelayPre_le_max e attempt⟩
  rw [nextDelayPre_eq_min e a ha, nextDelayPre_eq_min e b (le_trans ha hab)]
  have hpow : e.factor ^ a.toNat ≤ e.factor ^ b.toNat :=
    pow_le_pow_right₀ hfac (Int.toNat_le_toNat hab)
  have hmul : (e.min : ℚ) * e.factor ^ a.toNat ≤ (e.min : ℚ) * e.factor ^ b.toNat :=
    mul_le_mul_of_nonneg_left hpow (by exact_mod_cast hmin)
  exact min_le_min hmul (le_refl _)

/-- Sample exponential strategy (no jitter) for the C7 witness. -/
def expSampleNoJitter : ExponentialBackoff :=
  NewExponentialBackoff { Min := 2, Max := 5, Factor := 2, Jitter := false }

theorem exponential_pre_jitter_monotone_capped_witness :
    expSampleNoJitter.nextDelayPre 1 =
      min ((expSampleNoJitter.min : ℚ) * expSampleNoJitter.factor ^ (1 : Int).toNat)
        (expSampleNoJitter.max : ℚ) ∧
    expSampleNoJitter.nextDelayPre 1 ≤ expSampleNoJitter.nextDelayPre 3 ∧
    expSampleNoJitter.nextDelayPre 9 ≤ (expSampleNoJitter.max : ℚ) := by
  have h := exponential_pre_jitter_monotone_capped expSampleNoJitter
    (by decide) (by decide)
  exact ⟨h.1 1 (by decide), h.2.1 1 3 (by decide) (by decide), h.2.2 9⟩

/-- C6: with jitter enabled, the returned delay is the uniform random factor
`f ∈ [1/2, 3/2)` times the capped delay, i.e. the jitter is applied after the
cap at `maxDelay` (so the result can exceed `maxDelay` by up to 50%). -/
theorem exponential_jitter_after_cap (e : ExponentialBackoff)
    (hj : e.jitter = true) (attempt : Int) (ha : 0 ≤ attempt)
    (f : ℚ) (hf0 : 1 / 2 ≤ f) (hf1 : f < 3 / 2) :
    e.NextDelay attempt f =
      f * min ((e.min : ℚ) * e.factor ^ attempt.toNat) (e.max : ℚ) := by
  simp only [ExponentialBackoff.NextDelay, hj, if_true]
  rw [nextDelayPre_eq_min e attempt ha, mul_comm]

/-- Sample exponential strategy (with jitter) for the C6 witness. -/
def expSampleJitter : ExponentialBackoff :=
  NewExponentialBackoff { Min := 2, Max := 5, Factor := 2, Jitter := true }

theorem exponential_jitter_after_cap_witness :
    expSampleJitter.NextDelay 1 1 =
      1 * min ((expSampleJitter.min : ℚ) * expSampleJitter.factor ^ (1 : Int).toNat)
        (expSampleJitter.max : ℚ) :=
  exponential_jitter_after_cap expSampleJitter rfl 1 (by decide) 1
    ratHalfLeOne ratOneLtThreeHalves

/-- C8 counterexample: at `attempt = 2^62` the 64-bit product
`increment * (attempt+1)` overflows, the computed delay wraps to a negative
value, and the result is not `min (increment*(attempt+1)) maxDelay`. -/
theorem linear_backoff_overflow_counterexample :
    (NewLinearBackoff 2 5).NextDelay (2 ^ 62) ≠
      min ((NewLinearBackoff 2 5).increment * (2 ^ 62 + 1))
        (NewLinearBackoff 2 5).max := by decide

/-- C8 amended: whenever `attempt+1` and `increment*(attempt+1)` fit in a
signed 64-bit integer (as they do for every realistic attempt count), the
linear delay equals `min (increment*(attempt+1)) maxDelay` exactly. -/
theorem linear_backoff_delay_eq_min (l : LinearBackoff) (attempt : Int)
    (ha : 0 ≤ attempt) (hinc : 0 ≤ l.increment)
    (ha1 : attempt + 1 < 2 ^ 63) (hprod : l.increment * (attempt + 1) < 2 ^ 63) :
    l.NextDelay attempt = min (l.increment * (attempt + 1)) l.max := by
  simp only [LinearBackoff.NextDelay]
  rw [if_neg (not_lt.mpr ha)]
  have hb1 : -2 ^ 63 ≤ attempt + 1 := by omega
  rw [wrap64_eq_self (attempt + 1) hb1 ha1]
  have hA : (0 : Int) ≤ attempt + 1 := by omega
  have hnn : 0 ≤ l.increment * (attempt + 1) := mul_nonneg hinc hA
  have hb2 : -2 ^ 63 ≤ l.increment * (attempt + 1) := by linarith
  rw [wrap64_eq_self (l.increment * (attempt + 1)) hb2 hprod]
  rcases lt_or_le l.max (l.increment * (attempt + 1)) with h | h
  · rw [if_pos h, min_eq_right h.le]
  · rw [if_neg (not_lt.mpr h), min_eq_left h]

theorem linear_backoff_delay_eq_min_witness :
    (NewLinearBackoff 2 5).NextDelay 3 =
      min ((NewLinearBackoff 2 5).increment * (3 + 1)) (NewLinearBackoff 2 5).max :=
  linear_backoff_delay_eq_min (NewLinearBackoff 2 5) 3
    (by decide) (by decide) (by decide) (by decide)

/-- C10: the backoff constructors never fail; invalid inputs are silently
corrected, so every constructed exponential strategy satisfies
`0 < min ≤ max` and `factor > 1`, and every constructed linear strategy
satisfies `0 < increment ≤ max`. -/
theorem backoff_constructors_establish_invariants :
    (∀ c : ExponentialBackoffConfig,
        0 < (NewExponentialBackoff c).min ∧
        (NewExponentialBackoff c).min ≤ (NewExponentialBackoff c).max ∧
        1 < (NewExponentialBackoff c).factor) ∧
    (∀ increment mx : Int,
        0 < (NewLinearBackoff increment mx).increment ∧
        (NewLinearBackoff increment mx).increment ≤ (NewLinearBackoff increment mx).max) := by
  have hem : ∀ c : ExponentialBackoffConfig,
      (NewExponentialBackoff c).min = if c.Min ≤ 0 then second else c.Min :=
    fun _ => rfl
  have heM : ∀ c : ExponentialBackoffConfig,
      (NewExponentialBackoff c).max =
        if c.Max < (if c.Min ≤ 0 then second else c.Min)
        then (if c.Min ≤ 0 then second else c.Min) else c.Max :=
    fun _ => rfl
  have hef : ∀ c : ExponentialBackoffConfig,
      (NewExponentialBackoff c).factor = if c.Factor ≤ 1 then 2 else c.Factor :=
    fun _ => rfl
  have hli : ∀ increment mx : Int,
      (NewLinearBackoff increment mx).increment =
        if increment ≤ 0 then second else increment :=
    fun _ _ => rfl
  have hlM : ∀ increment mx : Int,
      (NewLinearBackoff increment mx).max =
        if mx < (if increment ≤ 0 then second else increment)
        then (if increment ≤ 0 then second else increment) else mx :=
    fun _ _ => rfl
  constructor
  · intro c
    rw [hem, heM, hef]
    simp only [second]
    refine ⟨?_, ?_, ?_⟩
    · split_ifs <;> omega
    · split_ifs <;> omega
    · split_ifs with h
      · norm_num
      · exact lt_of_not_le h
  · intro increment mx
    rw [hli, hlM]
    simp only [second]
    constructor
    · split_ifs <;> omega
    · split_ifs <;> omega

/-! ### pkg/retry (part_003) — `Do` -/

/-- Environment of one `retry.Do` run: `fnErr k` is the k-th invocation's
result (`none` = success, `some e` = error), `ctxErrAtIter j` is whether
`ctx.Err() != nil` is observed at the start of retry iteration `j`, and
`ctxDoneInSleep j` is whether `ctx.Done()` fires during the backoff sleep of
iteration `j`. `OnRetry` and the debug logging are side effects without
influence on control flow and are not modelled; the nil-strategy validation
is not modelled (a strategy is always present). -/
structure RetryEnv (ε : Type) where
  fnErr : ℕ → Option ε
  ctxErrAtIter : ℕ → Bool
  ctxDoneInSleep : ℕ → Bool

/-- The distinguishable outcomes of `retry.Do`: success, the unwrapped error
of the single invocation when `MaxAttempts == 0`, the two context-cancellation
errors (each annotated with the attempt number, as
`fault.WithContext("attempt", attempt)` does), the terminal
`ErrMaxAttemptsReached` wrap carrying the attempt count and the last
underlying error, and the invalid-configuration error. -/
inductive RetryResult (ε : Type) where
  | ok : RetryResult ε
  | firstErr : ε → RetryResult ε
  | cancelledBefore : ℕ → RetryResult ε
  | cancelledInSleep : ℕ → RetryResult ε
  | maxAttemptsReached : ℕ → ε → RetryResult ε
  | invalidConfig : RetryResult ε
  deriving DecidableEq

/-- The retry loop of `Do` (`for attempt := 0; attempt < MaxAttempts`),
returning the result together with the number of `fn` invocations made inside
the loop; `lastErr` is the error of the most recent invocation. -/
def doRetryLoop {ε : Type} (env : RetryEnv ε) (maxAttempts : ℕ) (lastErr : ε)
    (attempt : ℕ) : RetryResult ε × ℕ :=
  if h : attempt < maxAttempts then
    if env.ctxErrAtIter attempt then (.cancelledBefore attempt, 0)
    else if env.ctxDoneInSleep attempt then (.cancelledInSleep attempt, 0)
    else
      match env.fnErr (attempt + 1) with
      | none => (.ok, 1)
      | some e =>
        let r := doRetryLoop env maxAttempts e (attempt + 1)
        (r.1, r.2 + 1)
  else (.maxAttemptsReached maxAttempts lastErr, 0)
termination_by maxAttempts - attempt
decreasing_by omega

/-- `retry.Do` from part_003: validate, invoke once, return on success, return
the bare error when `MaxAttempts == 0`, otherwise run the retry loop. The
second component counts total `fn` invocations. -/
def Do {ε : Type} (env : RetryEnv ε) (maxAttempts : Int) : RetryResult ε × ℕ :=
  if maxAttempts < 0 then (.invalidConfig, 0)
  else
    match env.fnErr 0 with
    | none => (.ok, 1)
    | some e =>
      if maxAttempts = 0 then (.firstErr e, 1)
      else
        let r := doRetryLoop env maxAttempts.toNat e 0
        (r.1, r.2 + 1)

/-- `noCancel env` says the context is never observed cancelled. -/
def noCancel {ε : Type} (env : RetryEnv ε) : Prop :=
  ∀ j, env.ctxErrAtIter j = false ∧ env.ctxDoneInSleep j = false

theorem doRetryLoop_stop {ε : Type} (env : RetryEnv ε) (M : ℕ) (last : ε) (a : ℕ)
    (h : ¬ a < M) : doRetryLoop env M last a = (.maxAttemptsReached M last, 0) := by
  unfold doRetryLoop
  simp [h]

theorem doRetryLoop_cancelBefore {ε : Type} (env : RetryEnv ε) (M : ℕ) (last : ε)
    (a : ℕ) (h : a < M) (hc : env.ctxErrAtIter a = true) :
    doRetryLoop env M last a = (.cancelledBefore a, 0) := by
  unfold doRetryLoop
  simp [h, hc]

theorem doRetryLoop_cancelSleep {ε : Type} (env : RetryEnv ε) (M : ℕ) (last : ε)
    (a : ℕ) (h : a < M) (hc : env.ctxErrAtIter a = false)
    (hs : env.ctxDoneInSleep a = true) :
    doRetryLoop env M last a = (.cancelledInSleep a, 0) := by
  unfold doRetryLoop
  simp [h, hc, hs]

theorem doRetryLoop_ok {ε : Type} (env : RetryEnv ε) (M : ℕ) (last : ε) (a : ℕ)
    (h : a < M) (hc : env.ctxErrAtIter a = false)
    (hs : env.ctxDoneInSleep a = false) (hf : env.fnErr (a + 1) = none) :
    doRetryLoop env M last a = (.ok, 1) := by
  unfold doRetryLoop
  simp [h, hc, hs, hf]

theorem doRetryLoop_fail {ε : Type} (env : RetryEnv ε) (M : ℕ) (last : ε) (a : ℕ)
    (e : ε) (h : a < M) (hc : env.ctxErrAtIter a = false)
    (hs : env.ctxDoneInSleep a = false) (hf : env.fnErr (a + 1) = some e) :
    doRetryLoop env M last a =
      ((doRetryLoop env M e (a + 1)).1, (doRetryLoop env M e (a + 1)).2 + 1) := by
  conv_lhs => rw [doRetryLoop]
  simp [h, hc, hs, hf]

theorem doRetryLoop_skip {ε : Type} (env : RetryEnv ε) (M : ℕ) (errAt : ℕ → ε) :
    ∀ gap a, a + gap ≤ M →
      (∀ j, a ≤ j → j < a + gap →
          env.ctxErrAtIter j = false ∧ env.ctxDoneInSleep j = false ∧
          env.fnErr (j + 1) = some (errAt (j + 1))) →
      doRetryLoop env M (errAt a) a =
        ((doRetryLoop env M (errAt (a + gap)) (a + gap)).1,
         (doRetryLoop env M (errAt (a + gap)) (a + gap)).2 + gap) := by
  intro gap
  induction gap with
  | zero =>
    intro a _ _
    simp
  | succ g ih =>
    intro a hle hstep
    have h0 := hstep a (le_refl a) (by omega)
    have hlt : a < M := by omega
    rw [doRetryLoop_fail env M (errAt a) a (errAt (a + 1)) hlt h0.1 h0.2.1 h0.2.2]
    have hrec := ih (a + 1) (by omega) (fun j hj1 hj2 => hstep j (by omega) (by omega))
    rw [hrec]
    have hadd : a + 1 + g = a + (g + 1) := by omega
    rw [hadd]
    simp only [Prod.mk.injEq]
    exact ⟨trivial, by omega⟩

theorem doRetryLoop_count_le {ε : Type} (env : RetryEnv ε) (M : ℕ) :
    ∀ gap a last, M ≤ a + gap → (doRetryLoop env M last a).2 ≤ gap := by
  intro gap
  induction gap with
  | zero =>
    intro a last h
    rw [doRetryLoop_stop env M last a (by omega)]
  | succ g ih =>
    intro a last h
    by_cases hlt : a < M
    · cases hc : env.ctxErrAtIter a with
      | true =>
        rw [doRetryLoop_cancelBefore env M last a hlt hc]
        simp
      | false =>
        cases hs : env.ctxDoneInSleep a with
        | true =>
          rw [doRetryLoop_cancelSleep env M last a hlt hc hs]
          simp
        | false =>
          cases hf : env.fnErr (a + 1) with
          | none =>
            rw [doRetryLoop_ok env M last a hlt hc hs hf]
            simp
          | some e =>
            rw [doRetryLoop_fail env M last a e hlt hc hs hf]
            have hrec := ih (a + 1) e (by omega)
            show (doRetryLoop env M e (a + 1)).2 + 1 ≤ g + 1
            omega
    · rw [doRetryLoop_stop env M last a hlt]
      simp

theorem Do_ok0 {ε : Type} (env : RetryEnv ε) (m : Int) (hm : ¬ m < 0)
    (hf : env.fnErr 0 = none) : Do env m = (.ok, 1) := by
  unfold Do
  simp [hm, hf]

theorem Do_first {ε : Type} (env : RetryEnv ε) (m : Int) (hm : ¬ m < 0) (e : ε)
    (hf : env.fnErr 0 = some e) (h0 : m = 0) : Do env m = (.firstErr e, 1) := by
  unfold Do
  simp [hm, hf, h0]

theorem Do_loop {ε : Type} (env : RetryEnv ε) (m : Int) (hm : ¬ m < 0) (e : ε)
    (hf : env.fnErr 0 = some e) (h0 : ¬ m = 0) :
    Do env m = ((doRetryLoop env m.toNat e 0).1, (doRetryLoop env m.toNat e 0).2 + 1) := by
  unfold Do
  simp [hm, hf, h0]

/-- C4: `Do` invokes the operation at most `N+1` times; when it fails on every
invocation it is invoked exactly `N+1` times and returns the terminal
max-attempts error wrapping the last underlying error (for `N = 0` the single
invocation's error is returned unwrapped); a succeeding invocation `k` ends
the run immediately with success after exactly `k+1` invocations. -/
theorem retry_do_invocation_semantics {ε : Type} (env : RetryEnv ε) (N : ℕ)
    (errAt : ℕ → ε) :
    (Do env (N : Int)).2 ≤ N + 1 ∧
    ((∀ k, k ≤ N → env.fnErr k = some (errAt k)) → noCancel env →
      (0 < N → Do env (N : Int) = (.maxAttemptsReached N (errAt N), N + 1)) ∧
      (N = 0 → Do env (N : Int) = (.firstErr (errAt 0), 1))) ∧
    (∀ k, k ≤ N → env.fnErr k = none →
      (∀ j, j < k → env.fnErr j = some (errAt j)) → noCancel env →
      Do env (N : Int) = (.ok, k + 1)) := by
  refine ⟨?_, ?_, ?_⟩
  · cases hf : env.fnErr 0 with
    | none =>
      rw [Do_ok0 env (N : Int) (by omega) hf]
      show 1 ≤ N + 1
      omega
    | some e =>
      by_cases h0 : (N : Int) = 0
      · rw [Do_first env (N : Int) (by omega) e hf h0]
        show 1 ≤ N + 1
        omega
      · rw [Do_loop env (N : Int) (by omega) e hf h0]
        have hcount := doRetryLoop_count_le env ((N : Int)).toNat N 0 e (by omega)
        show (doRetryLoop env ((N : Int)).toNat e 0).2 + 1 ≤ N + 1
        omega
  · intro hall hnc
    constructor
    · intro hpos
      have hf0 : env.fnErr 0 = some (errAt 0) := hall 0 (by omega)
      rw [Do_loop env (N : Int) (by omega) (errAt 0) hf0 (by omega)]
      simp only [Int.toNat_natCast]
      have hskip := doRetryLoop_skip env N errAt N 0 (by omega)
        (fun j hj1 hj2 => ⟨(hnc j).1, (hnc j).2, hall (j + 1) (by omega)⟩)
      rw [Nat.zero_add] at hskip
      rw [doRetryLoop_stop env N (errAt N) N (by omega)] at hskip
      rw [hskip]
      simp
    · intro h0
      subst h0
      have hf0 : env.fnErr 0 = some (errAt 0) := hall 0 (by omega)
      exact Do_first env ((0 : ℕ) : Int) (by omega) (errAt 0) hf0 (by simp)
  · intro k hk hfk hprev hnc
    rcases Nat.eq_zero_or_pos k with hk0 | hkpos
    · subst hk0
      exact Do_ok0 env (N : Int) (by omega) hfk
    · have hf0 : env.fnErr 0 = some (errAt 0) := hprev 0 hkpos
      rw [Do_loop env (N : Int) (by omega) (errAt 0) hf0 (by omega)]
      simp only [Int.toNat_natCast]
      obtain ⟨g, hg⟩ : ∃ g, k = g + 1 := ⟨k - 1, by omega⟩
      have hskip := doRetryLoop_skip env N errAt g 0 (by omega)
        (fun j hj1 hj2 => ⟨(hnc j).1, (hnc j).2, hprev (j + 1) (by omega)⟩)
      rw [Nat.zero_add] at hskip
      have hok := doRetryLoop_ok env N (errAt g) g (by omega) (hnc g).1 (hnc g).2
        (by rw [show g + 1 = k from by omega]; exact hfk)
      rw [hok] at hskip
      rw [hskip]
      simp only [Prod.mk.injEq]
      exact ⟨trivial, by omega⟩

/-- All-failing, never-cancelled environment for the C4 witness. -/
def retryEnvAllFail : RetryEnv ℕ where
  fnErr := fun k => some k
  ctxErrAtIter := fun _ => false
  ctxDoneInSleep := fun _ => false

theorem retry_do_invocation_semantics_witness :
    Do retryEnvAllFail (2 : Int) = (.maxAttemptsReached 2 2, 3) ∧
    (Do retryEnvAllFail (2 : Int)).2 ≤ 3 := by
  have h := retry_do_invocation_semantics retryEnvAllFail 2 (fun k => k)
  exact ⟨(h.2.1 (fun k _ => rfl) (fun j => ⟨rfl, rfl⟩)).1 (by omega), h.1⟩

/-- C5: if the context is observed cancelled at the start of retry iteration
`a`, or becomes done during that iteration's sleep, `Do` aborts with the
corresponding cancellation error annotated with the attempt number, after
exactly `a+1` invocations (so the operation is not re-invoked), and these
cancellation results are distinct from the max-attempts-reached error. -/
theorem retry_do_cancellation {ε : Type} (env : RetryEnv ε) (N : ℕ)
    (errAt : ℕ → ε) (a : ℕ) (ha : a < N)
    (hpre : ∀ j, j < a → env.ctxErrAtIter j = false ∧ env.ctxDoneInSleep j = false)
    (hfail : ∀ k, k ≤ a → env.fnErr k = some (errAt k)) :
    (env.ctxErrAtIter a = true → Do env (N : Int) = (.cancelledBefore a, a + 1)) ∧
    (env.ctxErrAtIter a = false → env.ctxDoneInSleep a = true →
      Do env (N : Int) = (.cancelledInSleep a, a + 1)) ∧
    (∀ b m l, (RetryResult.cancelledBefore b : RetryResult ε) ≠ .maxAttemptsReached m l ∧
      (RetryResult.cancelledInSleep b : RetryResult ε) ≠ .maxAttemptsReached m l) := by
  have hf0 : env.fnErr 0 = some (errAt 0) := hfail 0 (by omega)
  have hskip := doRetryLoop_skip env N errAt a 0 (by omega)
    (fun j hj1 hj2 => ⟨(hpre j (by omega)).1, (hpre j (by omega)).2, hfail (j + 1) (by omega)⟩)
  rw [Nat.zero_add] at hskip
  refine ⟨?_, ?_, ?_⟩
  · intro hc
    rw [Do_loop env (N : Int) (by omega) (errAt 0) hf0 (by omega)]
    simp only [Int.toNat_natCast]
    rw [doRetryLoop_cancelBefore env N (errAt a) a ha hc] at hskip
    rw [hskip]
    simp only [Prod.mk.injEq]
    exact ⟨trivial, by omega⟩
  · intro hc hs
    rw [Do_loop env (N : Int) (by omega) (errAt 0) hf0 (by omega)]
    simp only [Int.toNat_natCast]
    rw [doRetryLoop_cancelSleep env N (errAt a) a ha hc hs] at hskip
    rw [hskip]
    simp only [Prod.mk.injEq]
    exact ⟨trivial, by omega⟩
  · intro b m l
    exact ⟨by simp, by simp⟩

/-- All-failing environment whose context is cancelled at retry iteration 1,
for the C5 witness. -/
def retryEnvCancelAt1 : RetryEnv ℕ where
  fnErr := fun k => some k
  ctxErrAtIter := fun j => j == 1
  ctxDoneInSleep := fun _ => false

theorem retry_do_cancellation_witness :
    Do retryEnvCancelAt1 (3 : Int) = (.cancelledBefore 1, 2) := by
  have h := retry_do_cancellation retryEnvCancelAt1 3 (fun k => k) 1 (by omega)
    (fun j hj => by
      have hj0 : j = 0 := by omega
      subst hj0
      exact ⟨rfl, rfl⟩)
    (fun k _ => rfl)
  exact h.1 (by decide)

/-! ### pkg/web/middleware — strings, IPv4 parsing, CIDR matching

Go strings are modelled as `List Char`. `net.ParseIP` is modelled for the
dotted-quad IPv4 grammar (four decimal fields 0–255, no leading zeros); Go
additionally parses IPv6 text forms, which none of the claims exercise. -/

/-- `strings.TrimSpace`. -/
def trimSpace (s : List Char) : List Char :=
  ((s.dropWhile Char.isWhitespace).reverse.dropWhile Char.isWhitespace).reverse

/-- `strings.Split` with a single-character separator; always returns at
least one piece. -/
def splitOnChar (sep : Char) : List Char → List (List Char)
  | [] => [[]]
  | c :: rest =>
    let r := splitOnChar sep rest
    if c = sep then [] :: r
    else (c :: r.headD []) :: r.tail

/-- Decimal value of a digit string. -/
def digitsVal (s : List Char) : ℕ :=
  s.foldl (fun n c => n * 10 + (c.toNat - 48)) 0

/-- One dotted-quad field: non-empty, at most 3 decimal digits, no leading
zero (except "0" itself), value at most 255 — the grammar `net.ParseIP`
accepts per field. -/
def parseIPv4Field (s : List Char) : Option ℕ :=
  if s ≠ [] ∧ s.length ≤ 3 ∧ s.all (fun c => 48 ≤ c.toNat ∧ c.toNat ≤ 57) ∧
      (s.length = 1 ∨ s.headD '0' ≠ '0') ∧ digitsVal s ≤ 255 then
    some (digitsVal s)
  else none

/-- `net.ParseIP` for dotted-quad IPv4, as the 32-bit address value. -/
def parseIPv4 (s : List Char) : Option ℕ :=
  match splitOnChar '.' s with
  | [a, b, c, d] =>
    match parseIPv4Field a, parseIPv4Field b, parseIPv4Field c, parseIPv4Field d with
    | some x, some y, some z, some w => some (((x * 256 + y) * 256 + z) * 256 + w)
    | _, _, _, _ => none
  | _ => none

/-- `net.IPNet`: the network address as stored by `net.ParseCIDR`
(already masked) and the prefix length. -/
structure IPNet where
  addr : ℕ
  ones : ℕ
  deriving DecidableEq

/-- `net.IPNet.Contains`: mask the candidate address and compare with the
stored (masked) network address. -/
def IPNet.Contains (n : IPNet) (ip : ℕ) : Bool :=
  ip / 2 ^ (32 - n.ones) * 2 ^ (32 - n.ones) == n.addr

/-- `net.ParseCIDR` for IPv4 `a.b.c.d/len`. -/
def ParseCIDR (s : List Char) : Option IPNet :=
  match splitOnChar '/' s with
  | [ipStr, onesStr] =>
    match parseIPv4 ipStr, parseIPv4Field onesStr with
    | some ip, some n =>
      if n ≤ 32 then some { addr := ip / 2 ^ (32 - n) * 2 ^ (32 - n), ones := n }
      else none
    | _, _ => none
  | _ => none

/-- `parseTrustedProxies` from part_012: malformed CIDR entries are skipped. -/
def parseTrustedProxies (cidrs : List (List Char)) : List IPNet :=
  cidrs.filterMap ParseCIDR

/-- `RateLimiter.isTrustedProxy` from part_012: an unparsable address is
never trusted; otherwise membership in any configured range. -/
def isTrustedProxy (trustedProxies : List IPNet) (ip : List Char) : Bool :=
  match parseIPv4 ip with
  | none => false
  | some p => trustedProxies.any (fun n => n.Contains p)

/-- `parseIP` from part_012, wrapping `net.SplitHostPort`: with exactly one
colon the part before it is the host; with no colon (missing port) or several
colons (which `SplitHostPort` rejects for unbracketed addresses) the error
branch returns the address unchanged. The bracketed `[host]:port` form is not
modelled. -/
def parseIP (addr : List Char) : List Char :=
  match splitOnChar ':' addr with
  | [host, _] => host
  | _ => addr

/-- `ByIP` from part_012 (with a security logger attached): resolved
rate-limit key together with whether an `ip_spoofing` event was logged. -/
def ByIP (trustedProxies : List IPNet) (remoteAddr xff : List Char) :
    List Char × Bool :=
  let remoteIP := parseIP remoteAddr
  if isTrustedProxy trustedProxies remoteIP then
    if xff ≠ [] then (trimSpace ((splitOnChar ',' xff).headD []), false)
    else (remoteIP, false)
  else
    if xff ≠ [] then (remoteIP, true)
    else (remoteIP, false)

/-- `RealIP` from pkg/web/middleware/real_ip.go: the value the middleware
leaves in `r.RemoteAddr`. -/
def RealIP (remoteAddr realIPHeader xffHeader : List Char) : List Char :=
  if realIPHeader ≠ [] then realIPHeader
  else if xffHeader ≠ [] then
    let ips := splitOnChar ',' xffHeader
    if 0 < ips.length then
      let ip := trimSpace (ips.headD [])
      if (parseIPv4 ip).isSome then ip else remoteAddr
    else remoteAddr
  else remoteAddr

theorem splitOnChar_ne_nil (sep : Char) (s : List Char) : splitOnChar sep s ≠ [] := by
  cases s with
  | nil => simp [splitOnChar]
  | cons c rest =>
    simp only [splitOnChar]
    split_ifs <;> simp

/-- C2: with a trusted peer and a non-empty X-Forwarded-For header the
resolved identity is the trimmed left-most entry of the header; with an
untrusted peer and the header present, the identity is the peer address and
an ip-spoofing event is flagged (the request is not denied — the strategy
still yields a key); with no header the peer address is used regardless of
trust. -/
theorem byip_identity_resolution (tp : List IPNet) (remoteAddr xff : List Char) :
    (isTrustedProxy tp (parseIP remoteAddr) = true → xff ≠ [] →
      ByIP tp remoteAddr xff = (trimSpace ((splitOnChar ',' xff).headD []), false)) ∧
    (isTrustedProxy tp (parseIP remoteAddr) = false → xff ≠ [] →
      ByIP tp remoteAddr xff = (parseIP remoteAddr, true)) ∧
    (xff = [] → ByIP tp remoteAddr xff = (parseIP remoteAddr, false)) := by
  refine ⟨?_, ?_, ?_⟩
  · intro ht hx
    simp [ByIP, ht, hx]
  · intro ht hx
    simp [ByIP, ht, hx]
  · intro hx
    subst hx
    simp [ByIP]

/-- Trusted-range configuration of the C2 witness (the spec's example). -/
def trustedSample : List IPNet := parseTrustedProxies ["10.0.0.0/8".data]

theorem byip_identity_resolution_witness :
    ByIP trustedSample "10.0.0.5:1234".data "203.0.113.9, 10.0.0.5".data =
      ("203.0.113.9".data, false) ∧
    ByIP trustedSample "203.0.113.1:1234".data "203.0.113.9, 10.0.0.5".data =
      ("203.0.113.1".data, true) := by
  constructor
  · have h := (byip_identity_resolution trustedSample "10.0.0.5:1234".data
      "203.0.113.9, 10.0.0.5".data).1 (by decide) (by decide)
    rw [h]
    decide
  · have h := (byip_identity_resolution trustedSample "203.0.113.1:1234".data
      "203.0.113.9, 10.0.0.5".data).2.1 (by decide) (by decide)
    rw [h]
    decide

/-- C3: a non-empty X-Real-IP header overwrites `RemoteAddr` unconditionally
— the middleware consults no trusted-proxy configuration at all (none is even
a parameter), so any client selects its own identity; otherwise a non-empty
X-Forwarded-For header whose trimmed left-most entry parses as an IP
overwrites `RemoteAddr` with that entry; with neither header the peer
address is kept. -/
theorem realip_header_override (remoteAddr realIPHeader xffHeader : List Char) :
    (realIPHeader ≠ [] → RealIP remoteAddr realIPHeader xffHeader = realIPHeader) ∧
    (realIPHeader = [] → xffHeader ≠ [] →
      (parseIPv4 (trimSpace ((splitOnChar ',' xffHeader).headD []))).isSome = true →
      RealIP remoteAddr realIPHeader xffHeader =
        trimSpace ((splitOnChar ',' xffHeader).headD [])) ∧
    (realIPHeader = [] → xffHeader = [] →
      RealIP remoteAddr realIPHeader xffHeader = remoteAddr) := by
  refine ⟨?_, ?_, ?_⟩
  · intro h1
    simp [RealIP, h1]
  · intro h1 h2 h3
    subst h1
    have hlen : 0 < (splitOnChar ',' xffHeader).length :=
      List.length_pos.mpr (splitOnChar_ne_nil ',' xffHeader)
    obtain ⟨v, hv⟩ := Option.isSome_iff_exists.mp h3
    simp only [List.headD_eq_head?] at hv
    simp [RealIP, h2, hlen, hv]
  · intro h1 h2
    subst h1
    subst h2
    simp [RealIP]

theorem realip_header_override_witness :
    RealIP "1.2.3.4:5".data "9.9.9.9".data "8.8.8.8".data = "9.9.9.9".data ∧
    RealIP "1.2.3.4:5".data [] "7.7.7.7, 8.8.8.8".data = "7.7.7.7".data := by
  constructor
  · exact (realip_header_override "1.2.3.4:5".data "9.9.9.9".data
      "8.8.8.8".data).1 (by decide)
  · have h := (realip_header_override "1.2.3.4:5".data []
      "7.7.7.7, 8.8.8.8".data).2.1 rfl (by decide) (by decide)
    rw [h]
    decide

/-! ### part_012 — `RateLimiter.Limit` and the circuit breaker -/

/-- `redis_rate.Result` fields the middleware reads. -/
structure AllowResult where
  Allowed : Int
  Remaining : Int
  RetryAfter : Int
  ResetAfter : Int
  deriving DecidableEq

/-- How the middleware answers a request. -/
inductive LimitResponse where
  | next
  | serviceUnavailable
  | tooManyRequests
  deriving DecidableEq

/-- A `SecurityLogger` event: type and severity strings as in part_011. -/
structure SecurityEvent where
  eventType : String
  severity : String
  deriving DecidableEq

/-- Observable outcome of one request through the limiter middleware. -/
structure LimitOutcome where
  response : LimitResponse
  quotaHeadersSet : Bool
  retryAfterHeaderSet : Bool
  events : List SecurityEvent
  deriving DecidableEq

/-- The `RateLimiter` state that `Limit` consults. -/
structure RateLimiter where
  enabled : Bool
  hasRedis : Bool

/-- One request through the handler produced by `RateLimiter.Limit`
(part_012 lines 139–195). `storeCall` is the outcome of
`circuitBreaker.Execute(func() { return limiter.Allow(...) })`: `.error` when
the breaker rejects the call or the store call itself errors, `.ok res`
otherwise. The key computation does not influence the admit/deny decision and
is omitted; the security logger is taken as attached. -/
def RateLimiter.Limit (rl : RateLimiter) (storeCall : Except String AllowResult) :
    LimitOutcome :=
  if !rl.enabled || !rl.hasRedis then
    { response := .next, quotaHeadersSet := false, retryAfterHeaderSet := false,
      events := [] }
  else
    match storeCall with
    | .error _ =>
      { response := .serviceUnavailable, quotaHeadersSet := false,
        retryAfterHeaderSet := false,
        events := [{ eventType := "circuit_breaker_open", severity := "high" }] }
    | .ok res =>
      if res.Allowed = 0 then
        { response := .tooManyRequests, quotaHeadersSet := true,
          retryAfterHeaderSet := true,
          events := [{ eventType := "rate_limit_exceeded", severity := "medium" }] }
      else
        { response := .next, quotaHeadersSet := true,
          retryAfterHeaderSet := false, events := [] }

/-- C1 counterexample: with the limiter enabled and a store attached, a
breaker-rejected (or errored) store call is answered with
503 Service Unavailable — the request is not allowed through. -/
theorem rate_limiter_store_error_counterexample :
    (RateLimiter.Limit { enabled := true, hasRedis := true }
      (Except.error "breaker rejected")).response = .serviceUnavailable ∧
    (RateLimiter.Limit { enabled := true, hasRedis := true }
      (Except.error "breaker rejected")).response ≠ .next := by decide

/-- C1 amended: when the limiter is enabled with a store attached and the
breaker rejects the call or the store call errors, a store-unavailability
event (`circuit_breaker_open`, high severity) is emitted, no quota headers
are attached, and the request is rejected with 503 Service Unavailable — the
limiter fails closed on this path, not open. -/
theorem rate_limiter_store_error_fail_closed (rl : RateLimiter) (err : String)
    (he : rl.enabled = true) (hr : rl.hasRedis = true) :
    RateLimiter.Limit rl (Except.error err) =
      { response := .serviceUnavailable, quotaHeadersSet := false,
        retryAfterHeaderSet := false,
        events := [{ eventType := "circuit_breaker_open", severity := "high" }] } := by
  simp [RateLimiter.Limit, he, hr]

theorem rate_limiter_store_error_fail_closed_witness :
    RateLimiter.Limit { enabled := true, hasRedis := true }
      (Except.error "store down") =
      { response := .serviceUnavailable, quotaHeadersSet := false,
        retryAfterHeaderSet := false,
        events := [{ eventType := "circuit_breaker_open", severity := "high" }] } :=
  rate_limiter_store_error_fail_closed { enabled := true, hasRedis := true }
    "store down" rfl rfl

/-- `ReadyToTrip` installed by `NewRateLimiter` (part_012 lines 42–45):
`counts.Requests >= 3 && float64(TotalFailures)/float64(Requests) >= 0.6`,
with float64 idealised over ℚ (`0.6` as `3/5`). -/
def readyToTrip (requests totalFailures : ℕ) : Bool :=
  decide (3 ≤ requests) &&
    decide ((3 : ℚ) / 5 ≤ (totalFailures : ℚ) / (requests : ℚ))

/-- Circuit-breaker state relevant to C9. Modelled from the spec: the breaker
implementation (`sony/gobreaker`) is an external dependency whose code is not
in this repository; spec §4.4 defines Closed (the call invokes the operation,
its success/failure is recorded into the window, and the breaker trips to
Open when the threshold predicate holds on the recorded counts) and Open
(calls are rejected immediately without invoking the operation). The trip
predicate itself is embedded from the source (`readyToTrip`). -/
inductive BreakerState where
  | closedS (requests totalFailures : ℕ)
  | openS
  deriving DecidableEq

/-- One call through the breaker: the next state and whether the wrapped
operation was invoked. -/
def breakerStep (s : BreakerState) (opFails : Bool) : BreakerState × Bool :=
  match s with
  | .openS => (.openS, false)
  | .closedS req fail =>
    let req' := req + 1
    let fail' := if opFails then fail + 1 else fail
    if readyToTrip req' fail' then (.openS, true)
    else (.closedS req' fail', true)

/-- C9: from Closed a call (which always invokes the operation) trips the
breaker to Open exactly when, after recording the call, at least 3 requests
are in the window and the failure ratio is at least 0.6; once Open, the next
call is rejected without invoking the quota-store operation. -/
theorem circuit_breaker_trip_and_reject (req fail : ℕ) (opFails : Bool) :
    ((breakerStep (.closedS req fail) opFails).1 = .openS ↔
      (3 ≤ req + 1 ∧
        (3 : ℚ) / 5 ≤
          (((if opFails then fail + 1 else fail) : ℕ) : ℚ) / (((req + 1) : ℕ) : ℚ))) ∧
    (breakerStep (.closedS req fail) opFails).2 = true ∧
    breakerStep .openS opFails = (.openS, false) := by
  refine ⟨?_, ?_, rfl⟩
  · simp only [breakerStep]
    by_cases h : readyToTrip (req + 1) (if opFails then fail + 1 else fail) = true
    · rw [if_pos h]
      simp only [readyToTrip, Bool.and_eq_true, decide_eq_true_eq] at h
      simpa using h
    · rw [if_neg h]
      simp only [readyToTrip, Bool.and_eq_true, decide_eq_true_eq] at h
      constructor
      · intro hcontra
        simp at hcontra
      · intro hAB
        exact absurd hAB h
  · simp only [breakerStep]
    split_ifs <;> rfl
